import Mathlib

set_option linter.unusedVariables false

/-!
Verification development for the emm tensor-backing virtual-memory allocator.

The repository's visible source is the thin pybind call surface
(`src/EMM/csrc/torch_bindings.cpp`).  The allocator core (`allocator.hpp`,
`torch_utils.hpp`) is declared and called there but its implementation is not
part of the sources, so the core operations below are modelled from the
specification (spec.md sections 3, 4, 6 and 7); each such definition carries a
doc comment saying so.  The binding-layer definitions mirror
`torch_bindings.cpp` directly: each exposed operation first obtains the
process-wide allocator (`FTensorAllocator::global_allocator()`), and
`create_kv_tensors` resolves the dtype byte-width via `torch_dtype_from_size`
before invoking the core create operation.

Failure results are modelled with `Except EmmError`; the C++ boolean results of
map/unmap correspond to `isOkE` of the result.
-/

abbrev PageHandle := Nat

abbrev Offset := Nat

/-- Error kinds of the allocator, from spec.md section 7. -/
inductive EmmError where
  | NotInitialized
  | InvalidArgument
  | AlreadyMapped
  | NotMapped
  | ResourceExhausted
  | AllocatorConfigError
deriving DecidableEq, Repr

/-- Element types produced by the fixed dtype-width lookup table. -/
inductive Dtype where
  | float16
  | float32
deriving DecidableEq, Repr

/-- Modelled from the spec: `torch_utils.hpp` is not in the repository sources.
Spec section 6: the dtype byte-width is an integer (e.g. 2, 4) resolved to a
concrete element type via a fixed lookup table; unsupported widths fail with
`InvalidArgument`. -/
def torch_dtype_from_size (n : Nat) : Except EmmError Dtype :=
  if n = 2 then .ok .float16
  else if n = 4 then .ok .float32
  else .error .InvalidArgument

/-- A tensor view over a sub-range of a virtual reservation (the
framework-independent buffer descriptor of spec.md section 9). -/
structure TensorView where
  byteOffset : Nat
  byteLength : Nat
  dtype : Dtype
  device : String
deriving DecidableEq, Repr

/-- A virtual address reservation together with its mapping table: which
granularity-aligned block offsets are currently backed by which physical
pages (spec.md section 3, VirtualReservation and OffsetMappingEntry).
One mapped offset holds one page per layer/K-or-V sub-tensor. -/
structure Reservation where
  device : String
  totalSize : Nat
  numLayers : Nat
  numBlocks : Nat
  mapping : List (Offset × List PageHandle)
deriving DecidableEq, Repr

/-- The process-wide allocator state: the physical page pool (free page
handles plus its configured capacity) and the tracked reservations, most
recently created first (spec.md section 3, AllocatorState). -/
structure AllocState where
  device : String
  granularity : Nat
  capacity : Nat
  pool : List PageHandle
  reservations : List Reservation
deriving DecidableEq, Repr

/-- `none` means the allocator is outside its init/shutdown window. -/
abbrev GlobalState := Option AllocState

def lookupOffset : List (Offset × List PageHandle) → Offset → Option (List PageHandle)
  | [], _ => none
  | e :: m, o => if e.1 = o then some e.2 else lookupOffset m o

def eraseOffset : List (Offset × List PageHandle) → Offset → List (Offset × List PageHandle)
  | [], _ => []
  | e :: m, o => if e.1 = o then m else e :: eraseOffset m o

/-- Pages acquired per mapped offset: one per layer for K and one per layer
for V (spec.md section 4.3). -/
def Reservation.pagesPerOffset (r : Reservation) : Nat := r.numLayers * 2

def roundUp (n g : Nat) : Nat := (n + g - 1) / g * g

/-- Modelled from the spec (section 4.3): map a single offset of the most
recently created reservation.  The offset must be in bounds and not already
mapped; one page per layer/K-or-V sub-tensor is acquired from the pool head.
Driver-side allocation beyond the configured pool is treated as exhausted,
matching the pool-conservation invariant of spec.md sections 5 and 8. -/
def mapOne (st : AllocState) (o : Offset) : Except EmmError AllocState :=
  match st.reservations with
  | [] => .error .InvalidArgument
  | r :: rs =>
    if o < r.numBlocks then
      match lookupOffset r.mapping o with
      | some _ => .error .AlreadyMapped
      | none =>
        if r.pagesPerOffset ≤ st.pool.length then
          .ok { st with
                pool := st.pool.drop r.pagesPerOffset,
                reservations :=
                  { r with mapping := (o, st.pool.take r.pagesPerOffset) :: r.mapping } :: rs }
        else .error .ResourceExhausted
    else .error .InvalidArgument

/-- Undo step used while rolling back a failed map batch: return the pages of
one installed offset to the pool and drop its mapping entry. -/
def forceUnmapOne (st : AllocState) (o : Offset) : AllocState :=
  match st.reservations with
  | [] => st
  | r :: rs =>
    match lookupOffset r.mapping o with
    | none => st
    | some ps =>
      { st with
        pool := ps ++ st.pool,
        reservations := { r with mapping := eraseOffset r.mapping o } :: rs }

def rollbackMap : AllocState → List Offset → AllocState
  | st, [] => st
  | st, o :: done => rollbackMap (forceUnmapOne st o) done

/-- Modelled from the spec (sections 4.3 and 9): process the offsets in order;
on the first failure undo the successful prefix in reverse order and report
the failure. -/
def mapGo : AllocState → List Offset → List Offset → AllocState × Except EmmError Unit
  | st, [], _ => (st, .ok ())
  | st, o :: rest, done =>
    match mapOne st o with
    | .ok st1 => mapGo st1 rest (o :: done)
    | .error e => (rollbackMap st done, .error e)

/-- Modelled from the spec: the core transactional map operation of the
allocator (spec.md section 4.3). -/
def AllocState.map_to_kv_tensors (st : AllocState) (offsets : List Offset) :
    AllocState × Except EmmError Unit :=
  mapGo st offsets []

/-- Modelled from the spec (section 4.4): unmap a single offset, returning its
pages to the pool; also reports the removed pages so a failed batch can be
rolled back. -/
def unmapOne (st : AllocState) (o : Offset) :
    Except EmmError (AllocState × List PageHandle) :=
  match st.reservations with
  | [] => .error .InvalidArgument
  | r :: rs =>
    match lookupOffset r.mapping o with
    | none => .error .NotMapped
    | some ps =>
      .ok ({ st with
             pool := ps ++ st.pool,
             reservations := { r with mapping := eraseOffset r.mapping o } :: rs }, ps)

/-- Undo step used while rolling back a failed unmap batch: re-install a
removed mapping entry, taking its pages back from the pool head. -/
def reMapOne (st : AllocState) (o : Offset) (ps : List PageHandle) : AllocState :=
  match st.reservations with
  | [] => st
  | r :: rs =>
    { st with
      pool := st.pool.drop ps.length,
      reservations := { r with mapping := (o, ps) :: r.mapping } :: rs }

def rollbackUnmap : AllocState → List (Offset × List PageHandle) → AllocState
  | st, [] => st
  | st, e :: done => rollbackUnmap (reMapOne st e.1 e.2) done

/-- Modelled from the spec (sections 4.4 and 9): process the offsets in order;
on the first failure undo the successful prefix in reverse order and report
the failure. -/
def unmapGo : AllocState → List Offset → List (Offset × List PageHandle) →
    AllocState × Except EmmError Unit
  | st, [], _ => (st, .ok ())
  | st, o :: rest, done =>
    match unmapOne st o with
    | .ok p => unmapGo p.1 rest ((o, p.2) :: done)
    | .error e => (rollbackUnmap st done, .error e)

/-- Modelled from the spec: the core transactional unmap operation of the
allocator (spec.md section 4.4). -/
def AllocState.unmap_from_kv_tensors (st : AllocState) (offsets : List Offset) :
    AllocState × Except EmmError Unit :=
  unmapGo st offsets []

/-- Modelled from the spec (section 4.2): validate the inputs, reserve
`roundUp(size, granularity) * num_layers * 2` bytes of virtual address space
without touching the pool, and return `num_layers * 2` views over disjoint
granularity-aligned sub-ranges in the fixed order layer 0 K, layer 0 V,
layer 1 K, layer 1 V, and so on. -/
def AllocState.create_kv_tensors (st : AllocState) (size : Nat) (dtype : Dtype)
    (dev_str : String) (num_layers : Int) :
    AllocState × Except EmmError (List TensorView) :=
  if 0 < size ∧ 0 < num_layers ∧ dev_str = st.device then
    let n := num_layers.toNat
    let alignedSize := roundUp size st.granularity
    let r : Reservation :=
      { device := dev_str, totalSize := alignedSize * n * 2, numLayers := n,
        numBlocks := alignedSize / st.granularity, mapping := [] }
    let views : List TensorView := (List.range (n * 2)).map fun i =>
      { byteOffset := i * alignedSize, byteLength := alignedSize,
        dtype := dtype, device := dev_str }
    ({ st with reservations := r :: st.reservations }, .ok views)
  else (st, .error .InvalidArgument)

def Reservation.mappedPageLists (r : Reservation) : List (List PageHandle) :=
  r.mapping.map Prod.snd

/-- The page lists of all mapping entries, across all reservations. -/
def allEntryPageLists (st : AllocState) : List (List PageHandle) :=
  (st.reservations.map Reservation.mappedPageLists).flatten

def allMappedPages (st : AllocState) : List PageHandle :=
  (allEntryPageLists st).flatten

/-- Modelled from the spec (section 4.5): unmap every currently mapped offset
of the tracked reservations, returning their pages to the pool, and release
the reservations themselves.  A second call without an intervening create is
a no-op. -/
def AllocState.free_kv_tensors (st : AllocState) : AllocState × Except EmmError Unit :=
  ({ st with pool := allMappedPages st ++ st.pool, reservations := [] }, .ok ())

/-- Modelled from the spec: `FTensorAllocator::global_allocator()` yields the
process-wide allocator instance; outside the init/shutdown window every
operation fails with `NotInitialized` (spec.md sections 3 and 4.1). -/
def FTensorAllocator.global_allocator (g : GlobalState) : Except EmmError AllocState :=
  match g with
  | none => .error .NotInitialized
  | some st => .ok st

/-- Device/runtime configuration passed to `init_emm` (spec.md section 8
example scenario). -/
structure FTensorAllocator.Config where
  device : String
  granularity : Nat
  poolPages : Nat
deriving DecidableEq, Repr

/-- Modelled from the spec (section 4.1): allocate process-wide state; a
second init while already initialized is a no-op; invalid configuration
fails with `AllocatorConfigError`. -/
def FTensorAllocator.init (cfg : FTensorAllocator.Config) (g : GlobalState) :
    GlobalState × Except EmmError Unit :=
  match g with
  | some st => (some st, .ok ())
  | none =>
    if 0 < cfg.granularity then
      (some { device := cfg.device, granularity := cfg.granularity,
              capacity := cfg.poolPages, pool := List.range cfg.poolPages,
              reservations := [] }, .ok ())
    else (none, .error .AllocatorConfigError)

/-- Modelled from the spec (section 4.1): release all reservations, pages and
process-wide state; safe to call multiple times. -/
def FTensorAllocator.shutdown (g : GlobalState) : GlobalState × Except EmmError Unit :=
  (none, .ok ())

/-- Binding-layer `emm::create_kv_tensors` (torch_bindings.cpp lines 12-18):
obtain the global allocator, resolve the dtype byte-width through
`torch_dtype_from_size`, then invoke the core create operation. -/
def emm.create_kv_tensors (g : GlobalState) (size dtype_size : Nat)
    (dev_str : String) (num_layers : Int) :
    GlobalState × Except EmmError (List TensorView) :=
  match FTensorAllocator.global_allocator g with
  | .error e => (g, .error e)
  | .ok st =>
    match torch_dtype_from_size dtype_size with
    | .error e => (g, .error e)
    | .ok d =>
      let p := st.create_kv_tensors size d dev_str num_layers
      (some p.1, p.2)

/-- Binding-layer `emm::map_to_kv_tensors` (torch_bindings.cpp lines 20-23):
obtain the global allocator and forward the offsets unchanged. -/
def emm.map_to_kv_tensors (g : GlobalState) (offsets : List Offset) :
    GlobalState × Except EmmError Unit :=
  match FTensorAllocator.global_allocator g with
  | .error e => (g, .error e)
  | .ok st =>
    let p := st.map_to_kv_tensors offsets
    (some p.1, p.2)

/-- Binding-layer `emm::unmap_from_kv_tensors` (torch_bindings.cpp lines
25-28): obtain the global allocator and forward the offsets unchanged. -/
def emm.unmap_from_kv_tensors (g : GlobalState) (offsets : List Offset) :
    GlobalState × Except EmmError Unit :=
  match FTensorAllocator.global_allocator g with
  | .error e => (g, .error e)
  | .ok st =>
    let p := st.unmap_from_kv_tensors offsets
    (some p.1, p.2)

/-- Binding-layer `emm::free_kv_tensors` (torch_bindings.cpp lines 30-33). -/
def emm.free_kv_tensors (g : GlobalState) : GlobalState × Except EmmError Unit :=
  match FTensorAllocator.global_allocator g with
  | .error e => (g, .error e)
  | .ok st =>
    let p := st.free_kv_tensors
    (some p.1, p.2)

/-- `init_emm` as registered in PYBIND11_MODULE (torch_bindings.cpp line 40):
bound directly to `FTensorAllocator::init`. -/
def init_emm (cfg : FTensorAllocator.Config) (g : GlobalState) :
    GlobalState × Except EmmError Unit :=
  FTensorAllocator.init cfg g

/-- `shutdown_emm` as registered in PYBIND11_MODULE (torch_bindings.cpp line
42): bound directly to `FTensorAllocator::shutdown`. -/
def shutdown_emm (g : GlobalState) : GlobalState × Except EmmError Unit :=
  FTensorAllocator.shutdown g

/-- States reachable through the exposed call surface, starting before
`init_emm`. -/
inductive Reachable : GlobalState → Prop where
  | start : Reachable none
  | do_init (cfg : FTensorAllocator.Config) {g : GlobalState} :
      Reachable g → Reachable (init_emm cfg g).1
  | do_shutdown {g : GlobalState} : Reachable g → Reachable (shutdown_emm g).1
  | do_create (size dtype_size : Nat) (dev_str : String) (num_layers : Int)
      {g : GlobalState} : Reachable g →
      Reachable (emm.create_kv_tensors g size dtype_size dev_str num_layers).1
  | do_map (offsets : List Offset) {g : GlobalState} :
      Reachable g → Reachable (emm.map_to_kv_tensors g offsets).1
  | do_unmap (offsets : List Offset) {g : GlobalState} :
      Reachable g → Reachable (emm.unmap_from_kv_tensors g offsets).1
  | do_free {g : GlobalState} : Reachable g → Reachable (emm.free_kv_tensors g).1

/-- The boolean result the pybind surface reports for a map/unmap call. -/
def isOkE {α : Type} : Except EmmError α → Bool
  | .ok _ => true
  | .error _ => false

deriving instance DecidableEq for Except

def gPool : GlobalState → List PageHandle
  | none => []
  | some st => st.pool

def gPoolCount (g : GlobalState) : Nat := (gPool g).length

/-- The mapping entry of an offset in the reservation map/unmap operate on
(the most recently created one). -/
def lookupHead (st : AllocState) (o : Offset) : Option (List PageHandle) :=
  match st.reservations with
  | [] => none
  | r :: _ => lookupOffset r.mapping o

def gLookup : GlobalState → Offset → Option (List PageHandle)
  | none, _ => none
  | some st, o => lookupHead st o

def headPages (st : AllocState) : Nat :=
  match st.reservations with
  | [] => 0
  | r :: _ => r.pagesPerOffset

def gHeadPages : GlobalState → Nat
  | none => 0
  | some st => headPages st

def keysMS (m : List (Offset × List PageHandle)) : Multiset Offset :=
  (m.map Prod.fst : List Offset)

def pagesMS (m : List (Offset × List PageHandle)) : Multiset PageHandle :=
  ((m.map Prod.snd).flatten : List PageHandle)

/-- Offset-by-offset identity of two reservations: same attributes, same
mapping entry at every offset, and the same multisets of held pages and of
mapped offsets. -/
def resEquiv (r r' : Reservation) : Prop :=
  r.device = r'.device ∧ r.totalSize = r'.totalSize ∧ r.numLayers = r'.numLayers ∧
  r.numBlocks = r'.numBlocks ∧
  (∀ o, lookupOffset r.mapping o = lookupOffset r'.mapping o) ∧
  pagesMS r.mapping = pagesMS r'.mapping ∧ keysMS r.mapping = keysMS r'.mapping

def resListEquiv : List Reservation → List Reservation → Prop
  | [], [] => True
  | r :: rs, r' :: rs' => resEquiv r r' ∧ rs = rs'
  | _, _ => False

/-- Offset-by-offset identity of two allocator states: equal pool contents,
equal attributes, and offset-by-offset identical reservations. -/
def stateEquiv (st st' : AllocState) : Prop :=
  st.device = st'.device ∧ st.granularity = st'.granularity ∧
  st.capacity = st'.capacity ∧ st.pool = st'.pool ∧
  resListEquiv st.reservations st'.reservations

def gEquiv : GlobalState → GlobalState → Prop
  | none, none => True
  | some st, some st' => stateEquiv st st'
  | _, _ => False

/-- All physical pages of the system: free pages in the pool plus the pages
held by mapping entries across all reservations. -/
def allPages (st : AllocState) : Multiset PageHandle :=
  ((st.pool ++ allMappedPages st : List PageHandle) : Multiset PageHandle)

/-- Pool conservation invariant: the pages of the system are exactly the
configured capacity of distinct pages (spec.md sections 5 and 8). -/
def PoolInv (st : AllocState) : Prop := allPages st = Multiset.range st.capacity

/-- Every reservation's mapping table has at most one entry per offset. -/
def WFmaps (st : AllocState) : Prop :=
  ∀ r ∈ st.reservations, (r.mapping.map Prod.fst).Nodup

def GlobalInv : GlobalState → Prop
  | none => True
  | some st => PoolInv st ∧ WFmaps st

def countKey (m : List (Offset × List PageHandle)) (o : Offset) : Nat :=
  (m.map Prod.fst).count o

def countKeyHead (st : AllocState) (o : Offset) : Nat :=
  match st.reservations with
  | [] => 0
  | r :: _ => countKey r.mapping o

def restPagesMS (rs : List Reservation) : Multiset PageHandle :=
  (((rs.map Reservation.mappedPageLists).flatten).flatten : List PageHandle)

def viewsOf : Except EmmError (List TensorView) → List TensorView
  | .ok vs => vs
  | .error _ => []

def gHeadTotalSize : GlobalState → Nat
  | none => 0
  | some st =>
    match st.reservations with
    | [] => 0
    | r :: _ => r.totalSize

def gHeadMapping : GlobalState → List (Offset × List PageHandle)
  | none => []
  | some st =>
    match st.reservations with
    | [] => []
    | r :: _ => r.mapping

theorem lookupOffset_cons (e : Offset × List PageHandle)
    (m : List (Offset × List PageHandle)) (o : Offset) :
    lookupOffset (e :: m) o = if e.1 = o then some e.2 else lookupOffset m o := rfl

theorem eraseOffset_cons (e : Offset × List PageHandle)
    (m : List (Offset × List PageHandle)) (o : Offset) :
    eraseOffset (e :: m) o = if e.1 = o then m else e :: eraseOffset m o := rfl

theorem lookup_eq_none_iff (m : List (Offset × List PageHandle)) (o : Offset) :
    lookupOffset m o = none ↔ o ∉ m.map Prod.fst := by
  induction m with
  | nil => simp [lookupOffset]
  | cons e m ih =>
    by_cases he : e.1 = o
    · simp [lookupOffset, he]
    · simp [lookupOffset, he, ih, Ne.symm he]

theorem eraseOffset_of_lookup_none (m : List (Offset × List PageHandle)) (o : Offset)
    (h : lookupOffset m o = none) : eraseOffset m o = m := by
  induction m with
  | nil => rfl
  | cons e m ih =>
    by_cases he : e.1 = o
    · simp [lookupOffset, he] at h
    · simp [lookupOffset, he] at h
      simp [eraseOffset, he, ih h]

theorem lookup_eraseOffset_ne (m : List (Offset × List PageHandle)) (o o' : Offset)
    (h : o' ≠ o) : lookupOffset (eraseOffset m o) o' = lookupOffset m o' := by
  induction m with
  | nil => rfl
  | cons e m ih =>
    rw [eraseOffset_cons]
    by_cases he : e.1 = o
    · rw [if_pos he, lookupOffset_cons, if_neg (show e.1 ≠ o' from fun hx => h (hx ▸ he))]
    · rw [if_neg he, lookupOffset_cons, lookupOffset_cons, ih]

theorem keys_eraseOffset_sublist (m : List (Offset × List PageHandle)) (o : Offset) :
    ((eraseOffset m o).map Prod.fst).Sublist (m.map Prod.fst) := by
  induction m with
  | nil => exact List.Sublist.refl _
  | cons e m ih =>
    rw [eraseOffset_cons]
    by_cases he : e.1 = o
    · rw [if_pos he, List.map_cons]
      exact List.sublist_cons_self _ _
    · rw [if_neg he, List.map_cons, List.map_cons]
      exact ih.cons₂ e.1

theorem keysMS_cons (e : Offset × List PageHandle) (m : List (Offset × List PageHandle)) :
    keysMS (e :: m) = e.1 ::ₘ keysMS m := rfl

theorem pagesMS_cons (e : Offset × List PageHandle) (m : List (Offset × List PageHandle)) :
    pagesMS (e :: m) = (e.2 : Multiset PageHandle) + pagesMS m := by
  simp only [pagesMS, List.map_cons, List.flatten_cons]
  exact (Multiset.coe_add e.2 ((m.map Prod.snd).flatten)).symm

theorem keysMS_eraseOffset (m : List (Offset × List PageHandle)) (o : Offset)
    (ps : List PageHandle) (h : lookupOffset m o = some ps) :
    keysMS m = o ::ₘ keysMS (eraseOffset m o) := by
  induction m with
  | nil => simp [lookupOffset] at h
  | cons e m ih =>
    by_cases he : e.1 = o
    · simp only [lookupOffset, he, if_pos] at h
      simp [eraseOffset, he, keysMS_cons]
    · simp only [lookupOffset, he, if_neg, not_false_iff] at h
      rw [eraseOffset_cons, if_neg he, keysMS_cons, keysMS_cons, ih h]
      exact (Multiset.cons_swap _ _ _)

theorem pagesMS_eraseOffset (m : List (Offset × List PageHandle)) (o : Offset)
    (ps : List PageHandle) (h : lookupOffset m o = some ps) :
    pagesMS m = (ps : Multiset PageHandle) + pagesMS (eraseOffset m o) := by
  induction m with
  | nil => simp [lookupOffset] at h
  | cons e m ih =>
    by_cases he : e.1 = o
    · simp only [lookupOffset, he, if_pos] at h
      cases h
      rw [eraseOffset_cons, if_pos he, pagesMS_cons]
    · simp only [lookupOffset, he, if_neg, not_false_iff] at h
      rw [eraseOffset_cons, if_neg he, pagesMS_cons, pagesMS_cons, ih h]
      rw [add_left_comm]

theorem countKey_eq_multiset (m : List (Offset × List PageHandle)) (o : Offset) :
    countKey m o = Multiset.count o (keysMS m) := by
  simp [countKey, keysMS, Multiset.coe_count]

theorem countKey_eraseOffset_self (m : List (Offset × List PageHandle)) (o : Offset)
    (ps : List PageHandle) (h : lookupOffset m o = some ps) :
    countKey m o = countKey (eraseOffset m o) o + 1 := by
  rw [countKey_eq_multiset, countKey_eq_multiset, keysMS_eraseOffset m o ps h,
    Multiset.count_cons_self]

theorem countKey_eraseOffset_ne (m : List (Offset × List PageHandle)) (o o' : Offset)
    (h : o' ≠ o) : countKey (eraseOffset m o) o' = countKey m o' := by
  cases hl : lookupOffset m o with
  | none => rw [eraseOffset_of_lookup_none m o hl]
  | some ps =>
    rw [countKey_eq_multiset, countKey_eq_multiset, keysMS_eraseOffset m o ps hl,
      Multiset.count_cons_of_ne h]

theorem lookup_none_iff_countKey_zero (m : List (Offset × List PageHandle)) (o : Offset) :
    lookupOffset m o = none ↔ countKey m o = 0 := by
  rw [lookup_eq_none_iff, countKey, List.count_eq_zero]

theorem lookup_isSome_of_countKey_pos (m : List (Offset × List PageHandle)) (o : Offset)
    (h : 0 < countKey m o) : (lookupOffset m o).isSome := by
  cases hl : lookupOffset m o with
  | none =>
    rw [lookup_none_iff_countKey_zero] at hl
    omega
  | some ps => rfl

theorem mapOne_ok_cases {st : AllocState} {o : Offset} {st1 : AllocState}
    (h : mapOne st o = .ok st1) :
    ∃ r rs, st.reservations = r :: rs ∧ o < r.numBlocks ∧ lookupOffset r.mapping o = none ∧
      r.pagesPerOffset ≤ st.pool.length ∧
      st1 = { st with
              pool := st.pool.drop r.pagesPerOffset,
              reservations :=
                { r with mapping := (o, st.pool.take r.pagesPerOffset) :: r.mapping } :: rs } := by
  cases hres : st.reservations with
  | nil => simp [mapOne, hres] at h
  | cons r rs =>
    simp only [mapOne, hres] at h
    by_cases hb : o < r.numBlocks
    · rw [if_pos hb] at h
      cases hl : lookupOffset r.mapping o with
      | some ps => rw [hl] at h; simp at h
      | none =>
        rw [hl] at h
        by_cases hp : r.pagesPerOffset ≤ st.pool.length
        · rw [if_pos hp] at h
          simp only [Except.ok.injEq] at h
          exact ⟨r, rs, rfl, hb, hl, hp, h.symm⟩
        · rw [if_neg hp] at h; simp at h
    · rw [if_neg hb] at h; simp at h

theorem mapOne_error_kind {st : AllocState} {o : Offset} {e : EmmError}
    (h : mapOne st o = .error e) :
    e = .InvalidArgument ∨ e = .AlreadyMapped ∨ e = .ResourceExhausted := by
  cases hres : st.reservations with
  | nil =>
    simp [mapOne, hres] at h
    exact Or.inl h.symm
  | cons r rs =>
    simp only [mapOne, hres] at h
    by_cases hb : o < r.numBlocks
    · rw [if_pos hb] at h
      cases hl : lookupOffset r.mapping o with
      | some ps =>
        rw [hl] at h
        simp at h
        exact Or.inr (Or.inl h.symm)
      | none =>
        rw [hl] at h
        by_cases hp : r.pagesPerOffset ≤ st.pool.length
        · rw [if_pos hp] at h; simp at h
        · rw [if_neg hp] at h
          simp at h
          exact Or.inr (Or.inr h.symm)
    · rw [if_neg hb] at h
      simp at h
      exact Or.inl h.symm

theorem forceUnmap_mapOne {st st1 : AllocState} {o : Offset} (h : mapOne st o = .ok st1) :
    forceUnmapOne st1 o = st := by
  obtain ⟨r, rs, hres, hb, hl, hp, hst1⟩ := mapOne_ok_cases h
  subst hst1
  obtain ⟨dev, gran, cap, pool, res⟩ := st
  obtain ⟨rdev, rtot, rnl, rnb, rmap⟩ := r
  simp only at hres
  subst hres
  simp [forceUnmapOne, lookupOffset_cons, eraseOffset_cons, List.take_append_drop]

theorem mapOne_frame {st st1 : AllocState} {o : Offset} (h : mapOne st o = .ok st1) :
    allPages st1 = allPages st ∧ st1.capacity = st.capacity ∧ st1.device = st.device ∧
    st1.granularity = st.granularity := by
  obtain ⟨r, rs, hres, hb, hl, hp, hst1⟩ := mapOne_ok_cases h
  subst hst1
  refine ⟨?_, rfl, rfl, rfl⟩
  simp only [allPages, allMappedPages, allEntryPageLists, Reservation.mappedPageLists, hres,
    List.map_cons, List.flatten_cons, List.cons_append, List.flatten_append]
  simp only [← Multiset.coe_add]
  have htd : ((st.pool.take r.pagesPerOffset : List PageHandle) : Multiset PageHandle) +
      ((st.pool.drop r.pagesPerOffset : List PageHandle) : Multiset PageHandle) =
      (st.pool : Multiset PageHandle) := by
    rw [Multiset.coe_add, List.take_append_drop]
  rw [← htd]
  abel

theorem mapOne_lookup {st st1 : AllocState} {o : Offset} (h : mapOne st o = .ok st1) :
    lookupHead st o = none ∧
    lookupHead st1 o = some (st.pool.take (headPages st)) ∧
    headPages st1 = headPages st ∧
    st1.pool.length + headPages st = st.pool.length ∧
    (∀ o', o' ≠ o → lookupHead st1 o' = lookupHead st o') ∧
    countKeyHead st1 o = countKeyHead st o + 1 ∧
    (∀ o', o' ≠ o → countKeyHead st1 o' = countKeyHead st o') := by
  obtain ⟨r, rs, hres, hb, hl, hp, hst1⟩ := mapOne_ok_cases h
  subst hst1
  refine ⟨?_, ?_, ?_, ?_, ?_, ?_, ?_⟩
  · simp [lookupHead, hres, hl]
  · simp [lookupHead, hres, headPages, lookupOffset_cons]
  · simp [headPages, hres, Reservation.pagesPerOffset]
  · simp only [headPages, hres, List.length_drop]
    omega
  · intro o' hne
    simp [lookupHead, hres, lookupOffset_cons, Ne.symm hne]
  · simp [countKeyHead, hres, countKey, Ne.symm]
  · intro o' hne
    simp [countKeyHead, hres, countKey, List.count_cons, Ne.symm hne]

theorem mapOne_WF {st st1 : AllocState} {o : Offset} (h : mapOne st o = .ok st1)
    (hwf : WFmaps st) : WFmaps st1 := by
  obtain ⟨r, rs, hres, hb, hl, hp, hst1⟩ := mapOne_ok_cases h
  subst hst1
  intro r' hr'
  simp only [hres, List.mem_cons] at hr'
  rcases hr' with hr' | hr'
  · subst hr'
    simp only [List.map_cons, List.nodup_cons]
    constructor
    · exact (lookup_eq_none_iff r.mapping o).mp hl
    · exact hwf r (by rw [hres]; exact List.mem_cons_self r rs)
  · exact hwf r' (by rw [hres]; exact List.mem_cons_of_mem _ hr')

theorem allPages_decomp (st : AllocState) (r : Reservation) (rs : List Reservation)
    (hres : st.reservations = r :: rs) :
    allPages st = (st.pool : Multiset PageHandle) + pagesMS r.mapping + restPagesMS rs := by
  simp only [allPages, allMappedPages, allEntryPageLists, hres, List.map_cons,
    List.flatten_cons, List.flatten_append, restPagesMS, pagesMS, Reservation.mappedPageLists]
  simp only [← Multiset.coe_add]
  abel

theorem unmapOne_ok_cases {st : AllocState} {o : Offset} {st1 : AllocState}
    {ps : List PageHandle} (h : unmapOne st o = .ok (st1, ps)) :
    ∃ r rs, st.reservations = r :: rs ∧ lookupOffset r.mapping o = some ps ∧
      st1 = { st with
              pool := ps ++ st.pool,
              reservations := { r with mapping := eraseOffset r.mapping o } :: rs } := by
  cases hres : st.reservations with
  | nil => simp [unmapOne, hres] at h
  | cons r rs =>
    simp only [unmapOne, hres] at h
    cases hl : lookupOffset r.mapping o with
    | none => rw [hl] at h; simp at h
    | some qs =>
      rw [hl] at h
      simp only [Except.ok.injEq, Prod.mk.injEq] at h
      obtain ⟨h1, h2⟩ := h
      subst h2
      exact ⟨r, rs, rfl, hl, h1.symm⟩

theorem unmapOne_error_kind {st : AllocState} {o : Offset} {e : EmmError}
    (h : unmapOne st o = .error e) : e = .InvalidArgument ∨ e = .NotMapped := by
  cases hres : st.reservations with
  | nil =>
    simp [unmapOne, hres] at h
    exact Or.inl h.symm
  | cons r rs =>
    simp only [unmapOne, hres] at h
    cases hl : lookupOffset r.mapping o with
    | none =>
      rw [hl] at h
      simp at h
      exact Or.inr h.symm
    | some qs => rw [hl] at h; simp at h

theorem unmapOne_of_lookup {st : AllocState} {o : Offset} {ps : List PageHandle}
    (h : lookupHead st o = some ps) :
    ∃ st1, unmapOne st o = .ok (st1, ps) := by
  cases hres : st.reservations with
  | nil => simp [lookupHead, hres] at h
  | cons r rs =>
    simp only [lookupHead, hres] at h
    refine ⟨{ st with
              pool := ps ++ st.pool,
              reservations := { r with mapping := eraseOffset r.mapping o } :: rs }, ?_⟩
    simp only [unmapOne, hres, h]

theorem unmapOne_frame {st st1 : AllocState} {o : Offset} {ps : List PageHandle}
    (h : unmapOne st o = .ok (st1, ps)) :
    allPages st1 = allPages st ∧ st1.capacity = st.capacity ∧ st1.device = st.device ∧
    st1.granularity = st.granularity := by
  obtain ⟨r, rs, hres, hl, hst1⟩ := unmapOne_ok_cases h
  subst hst1
  refine ⟨?_, rfl, rfl, rfl⟩
  rw [allPages_decomp _ r rs hres,
    allPages_decomp { st with
                      pool := ps ++ st.pool,
                      reservations := { r with mapping := eraseOffset r.mapping o } :: rs }
      { r with mapping := eraseOffset r.mapping o } rs rfl]
  simp only
  rw [pagesMS_eraseOffset r.mapping o ps hl]
  simp only [← Multiset.coe_add]
  abel

theorem unmapOne_lookup {st st1 : AllocState} {o : Offset} {ps : List PageHandle}
    (h : unmapOne st o = .ok (st1, ps)) :
    lookupHead st o = some ps ∧
    headPages st1 = headPages st ∧
    st1.pool = ps ++ st.pool ∧
    (∀ o', o' ≠ o → lookupHead st1 o' = lookupHead st o') ∧
    countKeyHead st1 o + 1 = countKeyHead st o ∧
    (∀ o', o' ≠ o → countKeyHead st1 o' = countKeyHead st o') := by
  obtain ⟨r, rs, hres, hl, hst1⟩ := unmapOne_ok_cases h
  subst hst1
  refine ⟨?_, ?_, rfl, ?_, ?_, ?_⟩
  · simp [lookupHead, hres, hl]
  · simp [headPages, hres, Reservation.pagesPerOffset]
  · intro o' hne
    simp only [lookupHead, hres]
    exact lookup_eraseOffset_ne r.mapping o o' hne
  · simp only [countKeyHead, hres]
    exact (countKey_eraseOffset_self r.mapping o ps hl).symm
  · intro o' hne
    simp only [countKeyHead, hres]
    exact countKey_eraseOffset_ne r.mapping o o' hne

theorem unmapOne_WF {st st1 : AllocState} {o : Offset} {ps : List PageHandle}
    (h : unmapOne st o = .ok (st1, ps)) (hwf : WFmaps st) : WFmaps st1 := by
  obtain ⟨r, rs, hres, hl, hst1⟩ := unmapOne_ok_cases h
  subst hst1
  intro r' hr'
  simp only [List.mem_cons] at hr'
  rcases hr' with hr' | hr'
  · subst hr'
    simp only
    exact (hwf r (by rw [hres]; exact List.mem_cons_self r rs)).sublist
      (keys_eraseOffset_sublist r.mapping o)
  · exact hwf r' (by rw [hres]; exact List.mem_cons_of_mem _ hr')

theorem unmapOne_lookup_none_of_nodup {st st1 : AllocState} {o : Offset}
    {ps : List PageHandle} (h : unmapOne st o = .ok (st1, ps))
    (hcount : countKeyHead st o ≤ 1) : lookupHead st1 o = none := by
  have hc := (unmapOne_lookup h).2.2.2.2.1
  obtain ⟨r, rs, hres, hl, hst1⟩ := unmapOne_ok_cases h
  have : countKeyHead st1 o = 0 := by omega
  simp only [countKeyHead, hst1] at this
  simp only [lookupHead, hst1]
  rw [lookup_none_iff_countKey_zero]
  exact this

theorem resEquiv_refl (r : Reservation) : resEquiv r r :=
  ⟨rfl, rfl, rfl, rfl, fun _ => rfl, rfl, rfl⟩

theorem resEquiv_trans {a b c : Reservation} (h1 : resEquiv a b) (h2 : resEquiv b c) :
    resEquiv a c := by
  obtain ⟨d1, t1, n1, b1, l1, p1, k1⟩ := h1
  obtain ⟨d2, t2, n2, b2, l2, p2, k2⟩ := h2
  exact ⟨d1.trans d2, t1.trans t2, n1.trans n2, b1.trans b2,
    fun o => (l1 o).trans (l2 o), p1.trans p2, k1.trans k2⟩

theorem resListEquiv_refl (l : List Reservation) : resListEquiv l l := by
  cases l with
  | nil => trivial
  | cons r rs => exact ⟨resEquiv_refl r, rfl⟩

theorem resListEquiv_trans {a b c : List Reservation} (h1 : resListEquiv a b)
    (h2 : resListEquiv b c) : resListEquiv a c := by
  cases a with
  | nil =>
    cases b with
    | nil => exact h2
    | cons r rs => exact h1.elim
  | cons r rs =>
    cases b with
    | nil => exact h1.elim
    | cons r' rs' =>
      cases c with
      | nil => exact h2.elim
      | cons r'' rs'' =>
        obtain ⟨hr1, ht1⟩ := h1
        obtain ⟨hr2, ht2⟩ := h2
        exact ⟨resEquiv_trans hr1 hr2, ht1.trans ht2⟩

theorem stateEquiv_refl (st : AllocState) : stateEquiv st st :=
  ⟨rfl, rfl, rfl, rfl, resListEquiv_refl st.reservations⟩

theorem stateEquiv_trans {a b c : AllocState} (h1 : stateEquiv a b) (h2 : stateEquiv b c) :
    stateEquiv a c := by
  obtain ⟨d1, g1, c1, p1, r1⟩ := h1
  obtain ⟨d2, g2, c2, p2, r2⟩ := h2
  exact ⟨d1.trans d2, g1.trans g2, c1.trans c2, p1.trans p2, resListEquiv_trans r1 r2⟩

theorem reMap_unmapOne {st st1 : AllocState} {o : Offset} {ps : List PageHandle}
    (h : unmapOne st o = .ok (st1, ps)) : stateEquiv (reMapOne st1 o ps) st := by
  obtain ⟨r, rs, hres, hl, hst1⟩ := unmapOne_ok_cases h
  subst hst1
  refine ⟨rfl, rfl, rfl, List.drop_left ps st.pool, ?_⟩
  show resListEquiv _ st.reservations
  rw [hres]
  refine ⟨?_, rfl⟩
  refine ⟨rfl, rfl, rfl, rfl, ?_, ?_, ?_⟩
  · intro x
    rw [lookupOffset_cons]
    by_cases hx : o = x
    · subst hx
      simp [hl]
    · rw [if_neg hx]
      exact lookup_eraseOffset_ne r.mapping o x (fun hh => hx hh.symm)
  · rw [pagesMS_cons]
    exact (pagesMS_eraseOffset r.mapping o ps hl).symm
  · rw [keysMS_cons]
    exact (keysMS_eraseOffset r.mapping o ps hl).symm

theorem reMapOne_congr {a b : AllocState} (h : stateEquiv a b) (o : Offset)
    (ps : List PageHandle) : stateEquiv (reMapOne a o ps) (reMapOne b o ps) := by
  obtain ⟨hd, hg, hc, hp, hr⟩ := h
  cases ha : a.reservations with
  | nil =>
    cases hb : b.reservations with
    | nil =>
      simp only [reMapOne, ha, hb]
      exact ⟨hd, hg, hc, hp, by rw [ha, hb]; trivial⟩
    | cons r' rs' => rw [ha, hb] at hr; exact hr.elim
  | cons r rs =>
    cases hb : b.reservations with
    | nil => rw [ha, hb] at hr; exact hr.elim
    | cons r' rs' =>
      rw [ha, hb] at hr
      obtain ⟨hre, hte⟩ := hr
      obtain ⟨rd, rt, rn, rb, rl, rp, rk⟩ := hre
      simp only [reMapOne, ha, hb]
      refine ⟨hd, hg, hc, by rw [hp], ?_⟩
      refine ⟨?_, hte⟩
      refine ⟨rd, rt, rn, rb, ?_, ?_, ?_⟩
      · intro x
        rw [lookupOffset_cons, lookupOffset_cons]
        by_cases hx : o = x
        · simp [hx]
        · rw [if_neg hx, if_neg hx]
          exact rl x
      · rw [pagesMS_cons, pagesMS_cons, rp]
      · rw [keysMS_cons, keysMS_cons, rk]

theorem rollbackUnmap_congr {a b : AllocState} (h : stateEquiv a b) :
    ∀ done, stateEquiv (rollbackUnmap a done) (rollbackUnmap b done) := by
  intro done
  induction done generalizing a b with
  | nil => exact h
  | cons e done ih =>
    simp only [rollbackUnmap]
    exact ih (reMapOne_congr h e.1 e.2)

theorem stateEquiv_allPages {a b : AllocState} (h : stateEquiv a b) :
    allPages a = allPages b := by
  obtain ⟨hd, hg, hc, hp, hr⟩ := h
  cases ha : a.reservations with
  | nil =>
    cases hb : b.reservations with
    | nil =>
      simp only [allPages, allMappedPages, allEntryPageLists, ha, hb, List.map_nil,
        List.flatten_nil, hp]
    | cons r' rs' => rw [ha, hb] at hr; exact hr.elim
  | cons r rs =>
    cases hb : b.reservations with
    | nil => rw [ha, hb] at hr; exact hr.elim
    | cons r' rs' =>
      rw [ha, hb] at hr
      obtain ⟨hre, hte⟩ := hr
      rw [allPages_decomp a r rs ha, allPages_decomp b r' rs' hb, hp, hre.2.2.2.2.2.1, hte]

theorem stateEquiv_WF {a b : AllocState} (h : stateEquiv a b) (hb : WFmaps b) : WFmaps a := by
  obtain ⟨hd, hg, hc, hp, hr⟩ := h
  cases ha : a.reservations with
  | nil => intro r hmem; rw [ha] at hmem; simp at hmem
  | cons r rs =>
    cases hbr : b.reservations with
    | nil => rw [ha, hbr] at hr; exact hr.elim
    | cons r' rs' =>
      rw [ha, hbr] at hr
      obtain ⟨hre, hte⟩ := hr
      intro q hq
      rw [ha] at hq
      rcases List.mem_cons.mp hq with hq | hq
      · subst hq
        have hperm : (q.mapping.map Prod.fst).Perm (r'.mapping.map Prod.fst) :=
          Multiset.coe_eq_coe.mp hre.2.2.2.2.2.2
        exact hperm.nodup_iff.mpr (hb r' (by rw [hbr]; exact List.mem_cons_self r' rs'))
      · exact hb q (by rw [hbr]; exact List.mem_cons_of_mem _ (hte ▸ hq))

theorem mapGo_spec (st0 : AllocState) :
    ∀ offs st done st' r, rollbackMap st done = st0 → allPages st = allPages st0 →
      st.capacity = st0.capacity → (WFmaps st0 → WFmaps st) →
      mapGo st offs done = (st', r) →
      allPages st' = allPages st0 ∧ st'.capacity = st0.capacity ∧
      (WFmaps st0 → WFmaps st') ∧ (∀ e, r = .error e → st' = st0) := by
  intro offs
  induction offs with
  | nil =>
    intro st done st' r h1 h2 h3 h4 h5
    simp only [mapGo, Prod.mk.injEq] at h5
    obtain ⟨h5a, h5b⟩ := h5
    subst h5a
    refine ⟨h2, h3, h4, ?_⟩
    intro e he
    rw [← h5b] at he
    exact absurd he (by simp)
  | cons o rest ih =>
    intro st done st' r h1 h2 h3 h4 h5
    simp only [mapGo] at h5
    cases hm : mapOne st o with
    | ok st1 =>
      rw [hm] at h5
      refine ih st1 (o :: done) st' r ?_ ?_ ?_ ?_ h5
      · show rollbackMap (forceUnmapOne st1 o) done = st0
        rw [forceUnmap_mapOne hm]
        exact h1
      · rw [(mapOne_frame hm).1]
        exact h2
      · rw [(mapOne_frame hm).2.1]
        exact h3
      · intro hwf
        exact mapOne_WF hm (h4 hwf)
    | error e =>
      rw [hm] at h5
      simp only [Prod.mk.injEq] at h5
      obtain ⟨h5a, h5b⟩ := h5
      rw [h1] at h5a
      subst h5a
      exact ⟨rfl, rfl, fun hwf => hwf, fun e' he' => rfl⟩

theorem unmapGo_spec (st0 : AllocState) :
    ∀ offs st done st' r, stateEquiv (rollbackUnmap st done) st0 →
      allPages st = allPages st0 → st.capacity = st0.capacity →
      (WFmaps st0 → WFmaps st) →
      unmapGo st offs done = (st', r) →
      allPages st' = allPages st0 ∧ st'.capacity = st0.capacity ∧
      (WFmaps st0 → WFmaps st') ∧ (∀ e, r = .error e → stateEquiv st' st0) := by
  intro offs
  induction offs with
  | nil =>
    intro st done st' r h1 h2 h3 h4 h5
    simp only [unmapGo, Prod.mk.injEq] at h5
    obtain ⟨h5a, h5b⟩ := h5
    subst h5a
    refine ⟨h2, h3, h4, ?_⟩
    intro e he
    rw [← h5b] at he
    exact absurd he (by simp)
  | cons o rest ih =>
    intro st done st' r h1 h2 h3 h4 h5
    simp only [unmapGo] at h5
    cases hm : unmapOne st o with
    | ok p =>
      obtain ⟨st1, ps⟩ := p
      rw [hm] at h5
      refine ih st1 ((o, ps) :: done) st' r ?_ ?_ ?_ ?_ h5
      · show stateEquiv (rollbackUnmap (reMapOne st1 o ps) done) st0
        exact stateEquiv_trans (rollbackUnmap_congr (reMap_unmapOne hm) done) h1
      · rw [(unmapOne_frame hm).1]
        exact h2
      · rw [(unmapOne_frame hm).2.1]
        exact h3
      · intro hwf
        exact unmapOne_WF hm (h4 hwf)
    | error e =>
      rw [hm] at h5
      simp only [Prod.mk.injEq] at h5
      obtain ⟨h5a, h5b⟩ := h5
      subst h5a
      refine ⟨stateEquiv_allPages h1, h1.2.2.1, fun hwf => stateEquiv_WF h1 hwf, ?_⟩
      intro e' he'
      exact h1

theorem lookupHead_none_iff_count (st : AllocState) (o : Offset) :
    lookupHead st o = none ↔ countKeyHead st o = 0 := by
  cases hres : st.reservations with
  | nil => simp [lookupHead, countKeyHead, hres]
  | cons r rs =>
    simp only [lookupHead, countKeyHead, hres]
    exact lookup_none_iff_countKey_zero r.mapping o

theorem mapGo_ok (offs : List Offset) :
    ∀ st done st', mapGo st offs done = (st', .ok ()) →
      (∀ o ∈ offs, lookupHead st o = none) ∧
      (∀ o ∈ offs, ∃ ps, lookupHead st' o = some ps ∧ ps.length = headPages st) ∧
      (∀ o, o ∉ offs → lookupHead st' o = lookupHead st o) ∧
      (∀ o ∈ offs, countKeyHead st' o = 1) ∧
      (∀ o, o ∉ offs → countKeyHead st' o = countKeyHead st o) ∧
      offs.Nodup ∧
      st'.pool.length + headPages st * offs.length = st.pool.length ∧
      headPages st' = headPages st ∧ st'.capacity = st.capacity := by
  induction offs with
  | nil =>
    intro st done st' h
    simp only [mapGo, Prod.mk.injEq] at h
    obtain ⟨h1, h2⟩ := h
    subst h1
    simp
  | cons o rest ih =>
    intro st done st' h
    simp only [mapGo] at h
    cases hm : mapOne st o with
    | error e =>
      rw [hm] at h
      simp only [Prod.mk.injEq] at h
      exact absurd h.2 (by simp)
    | ok st1 =>
      rw [hm] at h
      obtain ⟨hnone, hsome, hframe, hcnt1, hcntf, hnd, hlen, hhp, hcap⟩ := ih st1 (o :: done) st' h
      obtain ⟨hl0, hl1, hhp1, hlen1, hlo, hck1, hcko⟩ := mapOne_lookup hm
      have honotin : o ∉ rest := by
        intro hmem
        rw [hnone o hmem] at hl1
        exact absurd hl1 (by simp)
      have hck0 : countKeyHead st o = 0 := (lookupHead_none_iff_count st o).mp hl0
      refine ⟨?_, ?_, ?_, ?_, ?_, ?_, ?_, ?_, ?_⟩
      · intro o' ho'
        rcases List.mem_cons.mp ho' with ho' | ho'
        · subst ho'
          exact hl0
        · have hne : o' ≠ o := fun hx => honotin (hx ▸ ho')
          rw [← hlo o' hne]
          exact hnone o' ho'
      · intro o' ho'
        rcases List.mem_cons.mp ho' with ho' | ho'
        · subst ho'
          refine ⟨st.pool.take (headPages st), ?_, ?_⟩
          · rw [hframe o' honotin, hl1]
          · rw [List.length_take]
            have : headPages st ≤ st.pool.length := by omega
            omega
        · obtain ⟨ps, hps, hpl⟩ := hsome o' ho'
          exact ⟨ps, hps, by rw [hpl, hhp1]⟩
      · intro o' ho'
        have hne : o' ≠ o := fun hx => ho' (hx ▸ List.mem_cons_self o rest)
        have ho'' : o' ∉ rest := fun hx => ho' (List.mem_cons_of_mem o hx)
        rw [hframe o' ho'', hlo o' hne]
      · intro o' ho'
        rcases List.mem_cons.mp ho' with ho' | ho'
        · subst ho'
          rw [hcntf o' honotin, hck1, hck0]
        · exact hcnt1 o' ho'
      · intro o' ho'
        have hne : o' ≠ o := fun hx => ho' (hx ▸ List.mem_cons_self o rest)
        have ho'' : o' ∉ rest := fun hx => ho' (List.mem_cons_of_mem o hx)
        rw [hcntf o' ho'', hcko o' hne]
      · exact List.nodup_cons.mpr ⟨honotin, hnd⟩
      · rw [List.length_cons, Nat.mul_succ, ← Nat.add_assoc]
        rw [hhp1] at hlen
        rw [hlen, hlen1]
      · rw [hhp, hhp1]
      · rw [hcap]
        exact (mapOne_frame hm).2.1

theorem unmapGo_ok_mapped (offs : List Offset) :
    ∀ st done st', unmapGo st offs done = (st', .ok ()) →
      ∀ o ∈ offs, (lookupHead st o).isSome := by
  induction offs with
  | nil =>
    intro st done st' h o ho
    simp at ho
  | cons o rest ih =>
    intro st done st' h o' ho'
    simp only [unmapGo] at h
    cases hm : unmapOne st o with
    | error e =>
      rw [hm] at h
      simp only [Prod.mk.injEq] at h
      exact absurd h.2 (by simp)
    | ok p =>
      obtain ⟨st1, ps⟩ := p
      rw [hm] at h
      obtain ⟨hl0, hhp1, hpool, hlo, hck, hcko⟩ := unmapOne_lookup hm
      rcases List.mem_cons.mp ho' with ho' | ho'
      · subst ho'
        rw [hl0]
        rfl
      · by_cases hne : o' = o
        · subst hne
          rw [hl0]
          rfl
        · rw [← hlo o' hne]
          exact ih st1 ((o, ps) :: done) st' h o' ho'

theorem unmapGo_ok_of (offs : List Offset) :
    ∀ st done, offs.Nodup →
      (∀ o ∈ offs, (lookupHead st o).isSome ∧ countKeyHead st o ≤ 1) →
      (unmapGo st offs done).2 = .ok () ∧
      (∀ o ∈ offs, lookupHead (unmapGo st offs done).1 o = none) ∧
      (∀ o, o ∉ offs → lookupHead (unmapGo st offs done).1 o = lookupHead st o) ∧
      (unmapGo st offs done).1.pool.length =
        st.pool.length + (offs.map (fun o => ((lookupHead st o).getD []).length)).sum := by
  induction offs with
  | nil =>
    intro st done hnd hpre
    simp [unmapGo]
  | cons o rest ih =>
    intro st done hnd hpre
    obtain ⟨honotin, hndr⟩ := List.nodup_cons.mp hnd
    obtain ⟨hsome, hcle⟩ := hpre o (List.mem_cons_self o rest)
    obtain ⟨ps, hps⟩ := Option.isSome_iff_exists.mp hsome
    obtain ⟨st1, hm⟩ := unmapOne_of_lookup hps
    obtain ⟨hl0, hhp1, hpool, hlo, hck, hcko⟩ := unmapOne_lookup hm
    have hstep : unmapGo st (o :: rest) done = unmapGo st1 rest ((o, ps) :: done) := by
      simp only [unmapGo, hm]
    have hlnone : lookupHead st1 o = none := unmapOne_lookup_none_of_nodup hm hcle
    have hpre1 : ∀ o' ∈ rest, (lookupHead st1 o').isSome ∧ countKeyHead st1 o' ≤ 1 := by
      intro o' ho'
      have hne : o' ≠ o := fun hx => honotin (hx ▸ ho')
      rw [hlo o' hne, hcko o' hne]
      exact hpre o' (List.mem_cons_of_mem o ho')
    obtain ⟨ihok, ihnone, ihframe, ihlen⟩ := ih st1 ((o, ps) :: done) hndr hpre1
    rw [hstep]
    refine ⟨ihok, ?_, ?_, ?_⟩
    · intro o' ho'
      rcases List.mem_cons.mp ho' with ho' | ho'
      · subst ho'
        rw [ihframe o' honotin, hlnone]
      · exact ihnone o' ho'
    · intro o' ho'
      have hne : o' ≠ o := fun hx => ho' (hx ▸ List.mem_cons_self o rest)
      have ho'' : o' ∉ rest := fun hx => ho' (List.mem_cons_of_mem o hx)
      rw [ihframe o' ho'', hlo o' hne]
    · rw [ihlen]
      have hmapeq : (rest.map fun o' => ((lookupHead st1 o').getD []).length) =
          rest.map fun o' => ((lookupHead st o').getD []).length := by
        refine List.map_congr_left ?_
        intro o' ho'
        have hne : o' ≠ o := fun hx => honotin (hx ▸ ho')
        rw [hlo o' hne]
      rw [hmapeq]
      have hp1 : st1.pool.length = ps.length + st.pool.length := by
        rw [hpool, List.length_append]
      rw [hp1]
      simp only [List.map_cons, List.sum_cons, hps, Option.getD_some]
      omega

theorem mapGo_error_kind (offs : List Offset) :
    ∀ st done st' e, mapGo st offs done = (st', .error e) →
      e = .InvalidArgument ∨ e = .AlreadyMapped ∨ e = .ResourceExhausted := by
  induction offs with
  | nil =>
    intro st done st' e h
    simp only [mapGo, Prod.mk.injEq] at h
    exact absurd h.2 (by simp)
  | cons o rest ih =>
    intro st done st' e h
    simp only [mapGo] at h
    cases hm : mapOne st o with
    | ok st1 =>
      rw [hm] at h
      exact ih st1 (o :: done) st' e h
    | error e' =>
      rw [hm] at h
      simp only [Prod.mk.injEq] at h
      have := h.2
      simp only [Except.error.injEq] at this
      rw [← this]
      exact mapOne_error_kind hm

theorem unmapGo_error_kind (offs : List Offset) :
    ∀ st done st' e, unmapGo st offs done = (st', .error e) →
      e = .InvalidArgument ∨ e = .NotMapped := by
  induction offs with
  | nil =>
    intro st done st' e h
    simp only [unmapGo, Prod.mk.injEq] at h
    exact absurd h.2 (by simp)
  | cons o rest ih =>
    intro st done st' e h
    simp only [unmapGo] at h
    cases hm : unmapOne st o with
    | ok p =>
      rw [hm] at h
      exact ih p.1 ((o, p.2) :: done) st' e h
    | error e' =>
      rw [hm] at h
      simp only [Prod.mk.injEq] at h
      have := h.2
      simp only [Except.error.injEq] at this
      rw [← this]
      exact unmapOne_error_kind hm

theorem restPagesMS_cons (r : Reservation) (rs : List Reservation) :
    restPagesMS (r :: rs) = pagesMS r.mapping + restPagesMS rs := by
  simp only [restPagesMS, pagesMS, List.map_cons, List.flatten_cons, List.flatten_append,
    Reservation.mappedPageLists]
  simp only [← Multiset.coe_add]

theorem allPages_eq (st : AllocState) :
    allPages st = (st.pool : Multiset PageHandle) + restPagesMS st.reservations := by
  simp only [allPages, allMappedPages, allEntryPageLists, restPagesMS, ← Multiset.coe_add]

theorem globalInv_init (cfg : FTensorAllocator.Config) (g : GlobalState)
    (h : GlobalInv g) : GlobalInv (init_emm cfg g).1 := by
  cases g with
  | some st => exact h
  | none =>
    simp only [init_emm, FTensorAllocator.init]
    by_cases hg : 0 < cfg.granularity
    · rw [if_pos hg]
      refine ⟨?_, ?_⟩
      · show allPages _ = _
        rw [allPages_eq]
        simp only [restPagesMS, List.map_nil, List.flatten_nil, Multiset.coe_nil, add_zero]
        exact Multiset.coe_range cfg.poolPages
      · intro r hr
        simp at hr
    · rw [if_neg hg]
      trivial

theorem globalInv_shutdown (g : GlobalState) (h : GlobalInv g) :
    GlobalInv (shutdown_emm g).1 := trivial

theorem globalInv_create (g : GlobalState) (size dtype_size : Nat) (dev_str : String)
    (num_layers : Int) (h : GlobalInv g) :
    GlobalInv (emm.create_kv_tensors g size dtype_size dev_str num_layers).1 := by
  cases g with
  | none => exact h
  | some st =>
    simp only [emm.create_kv_tensors, FTensorAllocator.global_allocator]
    cases torch_dtype_from_size dtype_size with
    | error e => exact h
    | ok d =>
      simp only [AllocState.create_kv_tensors]
      by_cases hc : 0 < size ∧ 0 < num_layers ∧ dev_str = st.device
      · rw [if_pos hc]
        obtain ⟨hpi, hwf⟩ := h
        refine ⟨?_, ?_⟩
        · show allPages _ = _
          rw [allPages_eq]
          simp only [restPagesMS_cons]
          simp only [pagesMS, List.map_nil, List.flatten_nil, Multiset.coe_nil, zero_add]
          rw [← allPages_eq]
          exact hpi
        · intro r hr
          simp only [List.mem_cons] at hr
          rcases hr with hr | hr
          · subst hr
            simp
          · exact hwf r hr
      · rw [if_neg hc]
        exact h

theorem globalInv_map (g : GlobalState) (offsets : List Offset) (h : GlobalInv g) :
    GlobalInv (emm.map_to_kv_tensors g offsets).1 := by
  cases g with
  | none => exact h
  | some st =>
    obtain ⟨hpi, hwf⟩ := h
    simp only [emm.map_to_kv_tensors, FTensorAllocator.global_allocator,
      AllocState.map_to_kv_tensors]
    obtain ⟨hap, hcap, hwf', herr⟩ := mapGo_spec st offsets st [] (mapGo st offsets []).1
      (mapGo st offsets []).2 rfl rfl rfl (fun hx => hx) rfl
    refine ⟨?_, hwf' hwf⟩
    show allPages _ = Multiset.range _
    rw [hap, hcap]
    exact hpi

theorem globalInv_unmap (g : GlobalState) (offsets : List Offset) (h : GlobalInv g) :
    GlobalInv (emm.unmap_from_kv_tensors g offsets).1 := by
  cases g with
  | none => exact h
  | some st =>
    obtain ⟨hpi, hwf⟩ := h
    simp only [emm.unmap_from_kv_tensors, FTensorAllocator.global_allocator,
      AllocState.unmap_from_kv_tensors]
    obtain ⟨hap, hcap, hwf', herr⟩ := unmapGo_spec st offsets st [] (unmapGo st offsets []).1
      (unmapGo st offsets []).2 (stateEquiv_refl st) rfl rfl (fun hx => hx) rfl
    refine ⟨?_, hwf' hwf⟩
    show allPages _ = Multiset.range _
    rw [hap, hcap]
    exact hpi

theorem globalInv_free (g : GlobalState) (h : GlobalInv g) :
    GlobalInv (emm.free_kv_tensors g).1 := by
  cases g with
  | none => exact h
  | some st =>
    obtain ⟨hpi, hwf⟩ := h
    simp only [emm.free_kv_tensors, FTensorAllocator.global_allocator,
      AllocState.free_kv_tensors]
    refine ⟨?_, by intro r hr; simp at hr⟩
    show allPages _ = Multiset.range _
    rw [allPages_eq]
    simp only [restPagesMS, List.map_nil, List.flatten_nil, Multiset.coe_nil, add_zero]
    simp only [← Multiset.coe_add]
    rw [← hpi, allPages_eq st]
    have h2 : restPagesMS st.reservations = (allMappedPages st : Multiset PageHandle) := by
      simp [restPagesMS, allMappedPages, allEntryPageLists]
    rw [h2]
    exact add_comm _ _

theorem reachable_inv (g : GlobalState) (h : Reachable g) : GlobalInv g := by
  induction h with
  | start => trivial
  | do_init cfg hr ih => exact globalInv_init cfg _ ih
  | do_shutdown hr ih => exact globalInv_shutdown _ ih
  | do_create size ds dev n hr ih => exact globalInv_create _ size ds dev n ih
  | do_map offsets hr ih => exact globalInv_map _ offsets ih
  | do_unmap offsets hr ih => exact globalInv_unmap _ offsets ih
  | do_free hr ih => exact globalInv_free _ ih

theorem le_roundUp (n g : Nat) (hg : 0 < g) : n ≤ roundUp n g := by
  have h1 : n + g - 1 < (n + g - 1) / g * g + g := Nat.lt_div_mul_add hg
  unfold roundUp
  omega

theorem dvd_roundUp (n g : Nat) : g ∣ roundUp n g := dvd_mul_left g _

theorem sum_map_const {α : Type} (l : List α) (k : Nat) :
    (l.map fun _ => k).sum = k * l.length := by
  induction l with
  | nil => simp
  | cons a l ih =>
    simp only [List.map_cons, List.sum_cons, ih, List.length_cons]
    rw [Nat.mul_succ]
    omega

theorem torch_dtype_error_kind {n : Nat} {e : EmmError}
    (h : torch_dtype_from_size n = .error e) : e = .InvalidArgument := by
  by_cases h2 : n = 2
  · simp [torch_dtype_from_size, h2] at h
  · by_cases h4 : n = 4
    · simp [torch_dtype_from_size, h2, h4] at h
    · simp [torch_dtype_from_size, h2, h4] at h
      exact h.symm

theorem emm_map_some (st : AllocState) (offsets : List Offset) :
    emm.map_to_kv_tensors (some st) offsets =
      (some (mapGo st offsets []).1, (mapGo st offsets []).2) := rfl

theorem emm_unmap_some (st : AllocState) (offsets : List Offset) :
    emm.unmap_from_kv_tensors (some st) offsets =
      (some (unmapGo st offsets []).1, (unmapGo st offsets []).2) := rfl

/-- C1: if a batch call to map_to_kv_tensors or unmap_from_kv_tensors fails
at any position, the allocator state after the call is identical, offset by
offset, to the state before the call (for a failed map it is literally the
same state), and the call reports failure. -/
theorem C1_batch_atomicity (g : GlobalState) (offsets : List Offset) :
    (∀ g' e, emm.map_to_kv_tensors g offsets = (g', .error e) →
      isOkE (emm.map_to_kv_tensors g offsets).2 = false ∧ g' = g) ∧
    (∀ g' e, emm.unmap_from_kv_tensors g offsets = (g', .error e) →
      isOkE (emm.unmap_from_kv_tensors g offsets).2 = false ∧ gEquiv g' g) := by
  constructor
  · intro g' e h
    refine ⟨(congrArg (fun p => isOkE p.2) h).trans rfl, ?_⟩
    cases g with
    | none =>
      have h0 : emm.map_to_kv_tensors none offsets = (none, .error .NotInitialized) := rfl
      rw [h0, Prod.mk.injEq] at h
      exact h.1.symm
    | some st =>
      rw [emm_map_some, Prod.mk.injEq] at h
      obtain ⟨h1, h2⟩ := h
      have hspec := (mapGo_spec st offsets st [] (mapGo st offsets []).1
        (mapGo st offsets []).2 rfl rfl rfl (fun x => x) rfl).2.2.2 e h2
      rw [← h1, hspec]
  · intro g' e h
    refine ⟨(congrArg (fun p => isOkE p.2) h).trans rfl, ?_⟩
    cases g with
    | none =>
      have h0 : emm.unmap_from_kv_tensors none offsets = (none, .error .NotInitialized) := rfl
      rw [h0, Prod.mk.injEq] at h
      rw [← h.1]
      trivial
    | some st =>
      rw [emm_unmap_some, Prod.mk.injEq] at h
      obtain ⟨h1, h2⟩ := h
      have hspec := (unmapGo_spec st offsets st [] (unmapGo st offsets []).1
        (unmapGo st offsets []).2 (stateEquiv_refl st) rfl rfl (fun x => x) rfl).2.2.2 e h2
      rw [← h1]
      exact hspec

theorem C1_batch_atomicity_witness :
    (emm.map_to_kv_tensors (some ⟨"d", 2, 6, [0, 1, 2, 3, 4, 5], [⟨"d", 16, 1, 4, []⟩]⟩)
        [0, 1, 2, 3]).1 = some ⟨"d", 2, 6, [0, 1, 2, 3, 4, 5], [⟨"d", 16, 1, 4, []⟩]⟩ ∧
    gEquiv (emm.unmap_from_kv_tensors
        (some ⟨"d", 2, 6, [4, 5], [⟨"d", 8, 1, 2, [(0, [0, 1]), (1, [2, 3])]⟩]⟩) [0, 5]).1
      (some ⟨"d", 2, 6, [4, 5], [⟨"d", 8, 1, 2, [(0, [0, 1]), (1, [2, 3])]⟩]⟩) := by
  constructor
  · exact ((C1_batch_atomicity
      (some ⟨"d", 2, 6, [0, 1, 2, 3, 4, 5], [⟨"d", 16, 1, 4, []⟩]⟩) [0, 1, 2, 3]).1 _
      .ResourceExhausted (by decide)).2
  · exact ((C1_batch_atomicity
      (some ⟨"d", 2, 6, [4, 5], [⟨"d", 8, 1, 2, [(0, [0, 1]), (1, [2, 3])]⟩]⟩) [0, 5]).2 _
      .NotMapped (by decide)).2

/-- C4: mapping an offset that is already mapped (no intervening unmap) makes
the second map batch fail, with no side effects on the allocator state, and
the total pool consumption after both calls stays at one page-set (one page
per layer/K-or-V sub-tensor) per offset of the first, successful batch. -/
theorem C4_no_double_commit (g g₁ : GlobalState) (offs₁ offs₂ : List Offset) (o : Offset)
    (hmap : emm.map_to_kv_tensors g offs₁ = (g₁, .ok ())) (h1 : o ∈ offs₁) (h2 : o ∈ offs₂) :
    isOkE (emm.map_to_kv_tensors g₁ offs₂).2 = false ∧
    (emm.map_to_kv_tensors g₁ offs₂).1 = g₁ ∧
    gPoolCount (emm.map_to_kv_tensors g₁ offs₂).1 + gHeadPages g * offs₁.length =
      gPoolCount g := by
  cases g with
  | none =>
    have h0 : emm.map_to_kv_tensors none offs₁ = (none, .error .NotInitialized) := rfl
    rw [h0, Prod.mk.injEq] at hmap
    exact absurd hmap.2 (by simp)
  | some st =>
    rw [emm_map_some, Prod.mk.injEq] at hmap
    obtain ⟨hg1, hok⟩ := hmap
    have hgo : mapGo st offs₁ [] = ((mapGo st offs₁ []).1, (mapGo st offs₁ []).2) :=
      Prod.mk.eta.symm
    rw [hok] at hgo
    obtain ⟨hnone, hsome, hframe, hcnt1, hcntf, hnd, hlen, hhp, hcap⟩ :=
      mapGo_ok offs₁ st [] (mapGo st offs₁ []).1 hgo
    subst hg1
    obtain ⟨ps, hps, hpl⟩ := hsome o h1
    have hfail : ∀ u, (mapGo (mapGo st offs₁ []).1 offs₂ []).2 ≠ .ok u := by
      intro u hu
      have hgo2 : mapGo (mapGo st offs₁ []).1 offs₂ [] =
          ((mapGo (mapGo st offs₁ []).1 offs₂ []).1, .ok u) := by
        rw [← hu]
      have := (mapGo_ok offs₂ (mapGo st offs₁ []).1 []
        (mapGo (mapGo st offs₁ []).1 offs₂ []).1 hgo2).1 o h2
      rw [hps] at this
      exact absurd this (by simp)
    cases hres2 : (mapGo (mapGo st offs₁ []).1 offs₂ []).2 with
    | ok u => exact absurd hres2 (hfail u)
    | error e =>
      have hgo2 : mapGo (mapGo st offs₁ []).1 offs₂ [] =
          ((mapGo (mapGo st offs₁ []).1 offs₂ []).1, .error e) := by
        rw [← hres2]
      have hspec := (mapGo_spec (mapGo st offs₁ []).1 offs₂ (mapGo st offs₁ []).1 []
        (mapGo (mapGo st offs₁ []).1 offs₂ []).1 (mapGo (mapGo st offs₁ []).1 offs₂ []).2
        rfl rfl rfl (fun x => x) rfl).2.2.2 e hres2
      refine ⟨?_, ?_, ?_⟩
      · exact (congrArg isOkE hres2).trans rfl
      · exact congrArg some hspec
      · show (mapGo (mapGo st offs₁ []).1 offs₂ []).1.pool.length +
          headPages st * offs₁.length = st.pool.length
        rw [hspec]
        exact hlen

theorem C4_no_double_commit_witness :
    isOkE (emm.map_to_kv_tensors
        (some ⟨"d", 2, 6, [2, 3, 4, 5], [⟨"d", 8, 1, 2, [(0, [0, 1])]⟩]⟩) [0]).2 = false ∧
    (emm.map_to_kv_tensors
        (some ⟨"d", 2, 6, [2, 3, 4, 5], [⟨"d", 8, 1, 2, [(0, [0, 1])]⟩]⟩) [0]).1 =
      some ⟨"d", 2, 6, [2, 3, 4, 5], [⟨"d", 8, 1, 2, [(0, [0, 1])]⟩]⟩ ∧
    gPoolCount (emm.map_to_kv_tensors
        (some ⟨"d", 2, 6, [2, 3, 4, 5], [⟨"d", 8, 1, 2, [(0, [0, 1])]⟩]⟩) [0]).1 +
      gHeadPages (some ⟨"d", 2, 6, [0, 1, 2, 3, 4, 5], [⟨"d", 8, 1, 2, []⟩]⟩) * [0].length =
      gPoolCount (some ⟨"d", 2, 6, [0, 1, 2, 3, 4, 5], [⟨"d", 8, 1, 2, []⟩]⟩) :=
  C4_no_double_commit (some ⟨"d", 2, 6, [0, 1, 2, 3, 4, 5], [⟨"d", 8, 1, 2, []⟩]⟩)
    (some ⟨"d", 2, 6, [2, 3, 4, 5], [⟨"d", 8, 1, 2, [(0, [0, 1])]⟩]⟩) [0] [0] 0
    (by decide) (by decide) (by decide)

/-- C5: unmapping a batch that contains an offset which is not currently
mapped fails and leaves the pool and all mapping state unchanged, offset by
offset. -/
theorem C5_no_phantom_release (g : GlobalState) (offsets : List Offset) (o : Offset)
    (ho : o ∈ offsets) (hnm : gLookup g o = none) :
    isOkE (emm.unmap_from_kv_tensors g offsets).2 = false ∧
    gEquiv (emm.unmap_from_kv_tensors g offsets).1 g := by
  cases g with
  | none => exact ⟨rfl, trivial⟩
  | some st =>
    rw [emm_unmap_some]
    have hnm' : lookupHead st o = none := hnm
    have hfail : ∀ u, (unmapGo st offsets []).2 ≠ .ok u := by
      intro u hu
      have hgo : unmapGo st offsets [] = ((unmapGo st offsets []).1, .ok u) := by
        rw [← hu]
      have := unmapGo_ok_mapped offsets st [] (unmapGo st offsets []).1 hgo o ho
      rw [hnm'] at this
      exact absurd this (by simp)
    cases hres : (unmapGo st offsets []).2 with
    | ok u => exact absurd hres (hfail u)
    | error e =>
      refine ⟨rfl, ?_⟩
      exact (unmapGo_spec st offsets st [] (unmapGo st offsets []).1
        (unmapGo st offsets []).2 (stateEquiv_refl st) rfl rfl (fun x => x) rfl).2.2.2 e hres

theorem C5_no_phantom_release_witness :
    isOkE (emm.unmap_from_kv_tensors
        (some ⟨"d", 2, 4, [2, 3], [⟨"d", 8, 1, 2, [(0, [0, 1])]⟩]⟩) [1, 0]).2 = false ∧
    gEquiv (emm.unmap_from_kv_tensors
        (some ⟨"d", 2, 4, [2, 3], [⟨"d", 8, 1, 2, [(0, [0, 1])]⟩]⟩) [1, 0]).1
      (some ⟨"d", 2, 4, [2, 3], [⟨"d", 8, 1, 2, [(0, [0, 1])]⟩]⟩) :=
  C5_no_phantom_release (some ⟨"d", 2, 4, [2, 3], [⟨"d", 8, 1, 2, [(0, [0, 1])]⟩]⟩)
    [1, 0] 1 (by decide) (by decide)

/-- C3: whenever a map batch succeeds, a subsequent unmap of the same
offsets succeeds, restores the physical page pool free count to its
pre-map value, and leaves no mapping entry for any of those offsets. -/
theorem C3_roundtrip (g g₁ : GlobalState) (offsets : List Offset)
    (hmap : emm.map_to_kv_tensors g offsets = (g₁, .ok ())) :
    (emm.unmap_from_kv_tensors g₁ offsets).2 = .ok () ∧
    gPoolCount (emm.unmap_from_kv_tensors g₁ offsets).1 = gPoolCount g ∧
    ∀ o ∈ offsets, gLookup (emm.unmap_from_kv_tensors g₁ offsets).1 o = none := by
  cases g with
  | none =>
    have h0 : emm.map_to_kv_tensors none offsets = (none, .error .NotInitialized) := rfl
    rw [h0, Prod.mk.injEq] at hmap
    exact absurd hmap.2 (by simp)
  | some st =>
    rw [emm_map_some, Prod.mk.injEq] at hmap
    obtain ⟨hg1, hok⟩ := hmap
    have hgo : mapGo st offsets [] = ((mapGo st offsets []).1, (mapGo st offsets []).2) :=
      Prod.mk.eta.symm
    rw [hok] at hgo
    obtain ⟨hnone, hsome, hframe, hcnt1, hcntf, hnd, hlen, hhp, hcap⟩ :=
      mapGo_ok offsets st [] (mapGo st offsets []).1 hgo
    subst hg1
    have hpre : ∀ o ∈ offsets, (lookupHead (mapGo st offsets []).1 o).isSome ∧
        countKeyHead (mapGo st offsets []).1 o ≤ 1 := by
      intro o ho
      obtain ⟨ps, hps, hpl⟩ := hsome o ho
      refine ⟨by rw [hps]; rfl, Nat.le_of_eq (hcnt1 o ho)⟩
    obtain ⟨ihok, ihnone, ihframe, ihlen⟩ :=
      unmapGo_ok_of offsets (mapGo st offsets []).1 [] hnd hpre
    refine ⟨ihok, ?_, ?_⟩
    · show (unmapGo (mapGo st offsets []).1 offsets []).1.pool.length = st.pool.length
      rw [ihlen]
      have hconst : (offsets.map fun o =>
          ((lookupHead (mapGo st offsets []).1 o).getD []).length) =
          offsets.map fun _ => headPages st := by
        refine List.map_congr_left ?_
        intro o ho
        obtain ⟨ps, hps, hpl⟩ := hsome o ho
        rw [hps, Option.getD_some, hpl]
      rw [hconst, sum_map_const]
      omega
    · intro o ho
      exact ihnone o ho

theorem C3_roundtrip_witness :
    (emm.unmap_from_kv_tensors
        (some ⟨"d", 2, 8, [4, 5, 6, 7], [⟨"d", 8, 1, 2, [(1, [2, 3]), (0, [0, 1])]⟩]⟩)
        [0, 1]).2 = .ok () ∧
    gPoolCount (emm.unmap_from_kv_tensors
        (some ⟨"d", 2, 8, [4, 5, 6, 7], [⟨"d", 8, 1, 2, [(1, [2, 3]), (0, [0, 1])]⟩]⟩)
        [0, 1]).1 =
      gPoolCount (some ⟨"d", 2, 8, [0, 1, 2, 3, 4, 5, 6, 7], [⟨"d", 8, 1, 2, []⟩]⟩) ∧
    gLookup (emm.unmap_from_kv_tensors
        (some ⟨"d", 2, 8, [4, 5, 6, 7], [⟨"d", 8, 1, 2, [(1, [2, 3]), (0, [0, 1])]⟩]⟩)
        [0, 1]).1 0 = none ∧
    gLookup (emm.unmap_from_kv_tensors
        (some ⟨"d", 2, 8, [4, 5, 6, 7], [⟨"d", 8, 1, 2, [(1, [2, 3]), (0, [0, 1])]⟩]⟩)
        [0, 1]).1 1 = none := by
  obtain ⟨h1, h2, h3⟩ := C3_roundtrip
    (some ⟨"d", 2, 8, [0, 1, 2, 3, 4, 5, 6, 7], [⟨"d", 8, 1, 2, []⟩]⟩)
    (some ⟨"d", 2, 8, [4, 5, 6, 7], [⟨"d", 8, 1, 2, [(1, [2, 3]), (0, [0, 1])]⟩]⟩)
    [0, 1] (by decide)
  exact ⟨h1, h2, h3 0 (by decide), h3 1 (by decide)⟩

/-- C2: at every reachable allocator state, the pool free page count plus
the number of pages held by mapping entries across all reservations equals
the configured total page capacity, and the page lists of distinct mapping
entries are pairwise disjoint (no page handle is held by two entries). -/
theorem C2_pool_conservation (st : AllocState) (h : Reachable (some st)) :
    st.pool.length + (allMappedPages st).length = st.capacity ∧
    List.Pairwise List.Disjoint (allEntryPageLists st) := by
  obtain ⟨hpi, hwf⟩ := reachable_inv (some st) h
  constructor
  · have h1 : Multiset.card (allPages st) = st.capacity := by
      rw [hpi, Multiset.card_range]
    have h2 : Multiset.card (allPages st) =
        st.pool.length + (allMappedPages st).length := by
      show Multiset.card ((st.pool ++ allMappedPages st : List PageHandle) :
        Multiset PageHandle) = _
      rw [Multiset.coe_card, List.length_append]
    omega
  · have hnd : (allPages st).Nodup := by
      rw [hpi]
      exact Multiset.nodup_range st.capacity
    have hnd2 : (st.pool ++ allMappedPages st).Nodup := Multiset.coe_nodup.mp hnd
    have hnd3 : (allEntryPageLists st).flatten.Nodup := hnd2.of_append_right
    exact (List.nodup_flatten.mp hnd3).2

theorem C2_pool_conservation_witness :
    (⟨"dev0", 2, 3, [2], [⟨"dev0", 4, 1, 1, [(0, [0, 1])]⟩]⟩ : AllocState).pool.length +
        (allMappedPages ⟨"dev0", 2, 3, [2], [⟨"dev0", 4, 1, 1, [(0, [0, 1])]⟩]⟩).length =
      (⟨"dev0", 2, 3, [2], [⟨"dev0", 4, 1, 1, [(0, [0, 1])]⟩]⟩ : AllocState).capacity ∧
    List.Pairwise List.Disjoint
      (allEntryPageLists ⟨"dev0", 2, 3, [2], [⟨"dev0", 4, 1, 1, [(0, [0, 1])]⟩]⟩) := by
  have h0 : Reachable none := Reachable.start
  have h1 := Reachable.do_init ⟨"dev0", 2, 3⟩ h0
  have h2 := Reachable.do_create 2 2 "dev0" 1 h1
  have h3 := Reachable.do_map [0] h2
  have he : (emm.map_to_kv_tensors
      (emm.create_kv_tensors (init_emm ⟨"dev0", 2, 3⟩ none).1 2 2 "dev0" 1).1 [0]).1 =
      some ⟨"dev0", 2, 3, [2], [⟨"dev0", 4, 1, 1, [(0, [0, 1])]⟩]⟩ := by decide
  rw [he] at h3
  exact C2_pool_conservation _ h3

/-- C6: for every valid input (positive size, supported dtype byte-width,
initialized device, positive layer count), create_kv_tensors succeeds,
reserves a virtual range of exactly roundUp(size, granularity) * num_layers
* 2 bytes, commits no physical memory (pool untouched, no offset mapped),
and returns exactly num_layers * 2 views over disjoint granularity-aligned
sub-ranges in the fixed order layer 0 K, layer 0 V, layer 1 K, layer 1 V,
and so on (view i covers bytes [i*A, (i+1)*A) for A = the aligned per-tensor
size). -/
theorem C6_create (st : AllocState) (size dtype_size : Nat) (dev_str : String)
    (num_layers : Int) (d : Dtype) (g' : GlobalState)
    (res : Except EmmError (List TensorView))
    (hsize : 0 < size) (hn : 0 < num_layers) (hdev : dev_str = st.device)
    (hgran : 0 < st.granularity) (hd : torch_dtype_from_size dtype_size = .ok d)
    (hcall : emm.create_kv_tensors (some st) size dtype_size dev_str num_layers = (g', res)) :
    isOkE res = true ∧
    gPool g' = st.pool ∧
    gHeadMapping g' = [] ∧
    gHeadTotalSize g' = roundUp size st.granularity * num_layers.toNat * 2 ∧
    (viewsOf res).length = num_layers.toNat * 2 ∧
    (∀ i, ∀ hi : i < (viewsOf res).length,
      ((viewsOf res).get ⟨i, hi⟩).byteOffset = i * roundUp size st.granularity ∧
      ((viewsOf res).get ⟨i, hi⟩).byteLength = roundUp size st.granularity ∧
      ((viewsOf res).get ⟨i, hi⟩).dtype = d ∧
      ((viewsOf res).get ⟨i, hi⟩).device = dev_str ∧
      st.granularity ∣ ((viewsOf res).get ⟨i, hi⟩).byteOffset) ∧
    (∀ i j, ∀ hi : i < (viewsOf res).length, ∀ hj : j < (viewsOf res).length, i < j →
      ((viewsOf res).get ⟨i, hi⟩).byteOffset + ((viewsOf res).get ⟨i, hi⟩).byteLength ≤
        ((viewsOf res).get ⟨j, hj⟩).byteOffset) := by
  have hbind : emm.create_kv_tensors (some st) size dtype_size dev_str num_layers =
      (some (st.create_kv_tensors size d dev_str num_layers).1,
       (st.create_kv_tensors size d dev_str num_layers).2) := by
    simp only [emm.create_kv_tensors, FTensorAllocator.global_allocator, hd]
  rw [hbind, Prod.mk.injEq] at hcall
  obtain ⟨hg', hres⟩ := hcall
  subst hg'
  subst hres
  have hcore : st.create_kv_tensors size d dev_str num_layers =
      ({ st with
         reservations :=
           ⟨dev_str, roundUp size st.granularity * num_layers.toNat * 2, num_layers.toNat,
            roundUp size st.granularity / st.granularity, []⟩ :: st.reservations },
       .ok ((List.range (num_layers.toNat * 2)).map fun i =>
         ⟨i * roundUp size st.granularity, roundUp size st.granularity, d, dev_str⟩)) := by
    simp only [AllocState.create_kv_tensors, if_pos (And.intro hsize (And.intro hn hdev))]
  rw [hcore]
  refine ⟨rfl, rfl, rfl, rfl, ?_, ?_, ?_⟩
  · simp [viewsOf]
  · intro i hi
    simp only [viewsOf, List.length_map, List.length_range] at hi
    simp only [viewsOf, List.get_eq_getElem, List.getElem_map, List.getElem_range]
    refine ⟨trivial, trivial, trivial, trivial, ?_⟩
    exact Dvd.dvd.mul_left (dvd_roundUp size st.granularity) i
  · intro i j hi hj hij
    simp only [viewsOf, List.length_map, List.length_range] at hi hj
    simp only [viewsOf, List.get_eq_getElem, List.getElem_map, List.getElem_range]
    rw [← Nat.succ_mul]
    exact mul_le_mul_right' hij (roundUp size st.granularity)

theorem C6_create_witness :
    isOkE (emm.create_kv_tensors (some ⟨"dev0", 2097152, 1024, List.range 1024, []⟩)
        1048576 2 "dev0" 2).2 = true ∧
    gPool (emm.create_kv_tensors (some ⟨"dev0", 2097152, 1024, List.range 1024, []⟩)
        1048576 2 "dev0" 2).1 = List.range 1024 ∧
    gHeadMapping (emm.create_kv_tensors (some ⟨"dev0", 2097152, 1024, List.range 1024, []⟩)
        1048576 2 "dev0" 2).1 = [] ∧
    gHeadTotalSize (emm.create_kv_tensors (some ⟨"dev0", 2097152, 1024, List.range 1024, []⟩)
        1048576 2 "dev0" 2).1 = 8388608 ∧
    (viewsOf (emm.create_kv_tensors (some ⟨"dev0", 2097152, 1024, List.range 1024, []⟩)
        1048576 2 "dev0" 2).2).length = 4 := by
  obtain ⟨h1, h2, h3, h4, h5, h6, h7⟩ := C6_create ⟨"dev0", 2097152, 1024, List.range 1024, []⟩
    1048576 2 "dev0" 2 .float16
    (emm.create_kv_tensors (some ⟨"dev0", 2097152, 1024, List.range 1024, []⟩)
      1048576 2 "dev0" 2).1
    (emm.create_kv_tensors (some ⟨"dev0", 2097152, 1024, List.range 1024, []⟩)
      1048576 2 "dev0" 2).2
    (by decide) (by decide) rfl (by decide) (by decide) Prod.mk.eta.symm
  refine ⟨h1, ?_, h3, ?_, ?_⟩
  · rw [h2]
  · rw [h4]
    decide
  · rw [h5]
    decide

/-- C7: shutdown_emm is idempotent (a second call is a no-op), and after
shutdown_emm every other operation fails with NotInitialized (the binding
obtains the global allocator before doing anything else) until init_emm is
called again, after which the operations are initialized again and no longer
fail with NotInitialized. -/
theorem C7_lifecycle :
    (∀ g, shutdown_emm (shutdown_emm g).1 = ((shutdown_emm g).1, .ok ())) ∧
    (∀ g offsets, emm.map_to_kv_tensors (shutdown_emm g).1 offsets =
      ((shutdown_emm g).1, .error .NotInitialized)) ∧
    (∀ g offsets, emm.unmap_from_kv_tensors (shutdown_emm g).1 offsets =
      ((shutdown_emm g).1, .error .NotInitialized)) ∧
    (∀ g, emm.free_kv_tensors (shutdown_emm g).1 =
      ((shutdown_emm g).1, .error .NotInitialized)) ∧
    (∀ g size ds dev n, emm.create_kv_tensors (shutdown_emm g).1 size ds dev n =
      ((shutdown_emm g).1, .error .NotInitialized)) ∧
    (∀ st offsets, (emm.map_to_kv_tensors (some st) offsets).2 ≠
      .error .NotInitialized) ∧
    (∀ st offsets, (emm.unmap_from_kv_tensors (some st) offsets).2 ≠
      .error .NotInitialized) ∧
    (∀ st, (emm.free_kv_tensors (some st)).2 ≠ .error .NotInitialized) ∧
    (∀ st size ds dev n, (emm.create_kv_tensors (some st) size ds dev n).2 ≠
      .error .NotInitialized) ∧
    (∀ cfg g, 0 < cfg.granularity →
      (init_emm cfg (shutdown_emm g).1).2 = .ok () ∧
      (init_emm cfg (shutdown_emm g).1).1 =
        some ⟨cfg.device, cfg.granularity, cfg.poolPages,
              List.range cfg.poolPages, []⟩) := by
  refine ⟨fun g => rfl, fun g offsets => rfl, fun g offsets => rfl, fun g => rfl,
    fun g size ds dev n => rfl, ?_, ?_, ?_, ?_, ?_⟩
  · intro st offsets h
    have h' : (mapGo st offsets []).2 = .error .NotInitialized := h
    have hgo : mapGo st offsets [] = ((mapGo st offsets []).1, .error .NotInitialized) := by
      rw [← h']
    rcases mapGo_error_kind offsets st [] (mapGo st offsets []).1 .NotInitialized hgo
      with hk | hk | hk <;> simp at hk
  · intro st offsets h
    have h' : (unmapGo st offsets []).2 = .error .NotInitialized := h
    have hgo : unmapGo st offsets [] = ((unmapGo st offsets []).1, .error .NotInitialized) := by
      rw [← h']
    rcases unmapGo_error_kind offsets st [] (unmapGo st offsets []).1 .NotInitialized hgo
      with hk | hk <;> simp at hk
  · intro st h
    exact Except.noConfusion h
  · intro st size ds dev n h
    cases ht : torch_dtype_from_size ds with
    | error e =>
      have h2 : (emm.create_kv_tensors (some st) size ds dev n).2 = .error e := by
        simp only [emm.create_kv_tensors, FTensorAllocator.global_allocator, ht]
      rw [h] at h2
      have := torch_dtype_error_kind ht
      subst this
      simp at h2
    | ok d =>
      have h2 : (emm.create_kv_tensors (some st) size ds dev n).2 =
          (st.create_kv_tensors size d dev n).2 := by
        simp only [emm.create_kv_tensors, FTensorAllocator.global_allocator, ht]
      rw [h2] at h
      by_cases hc : 0 < size ∧ 0 < n ∧ dev = st.device
      · simp only [AllocState.create_kv_tensors, if_pos hc] at h
        exact Except.noConfusion h
      · simp only [AllocState.create_kv_tensors, if_neg hc] at h
        exact absurd h (by simp)
  · intro cfg g hg
    constructor
    · show (FTensorAllocator.init cfg none).2 = .ok ()
      simp only [FTensorAllocator.init, if_pos hg]
    · show (FTensorAllocator.init cfg none).1 = _
      simp only [FTensorAllocator.init, if_pos hg]

theorem C7_lifecycle_witness :
    shutdown_emm (shutdown_emm (some ⟨"d", 2, 2, [0, 1], []⟩)).1 =
      ((shutdown_emm (some ⟨"d", 2, 2, [0, 1], []⟩)).1, .ok ()) ∧
    emm.map_to_kv_tensors (shutdown_emm (some ⟨"d", 2, 2, [0, 1], []⟩)).1 [0] =
      ((shutdown_emm (some ⟨"d", 2, 2, [0, 1], []⟩)).1, .error .NotInitialized) ∧
    emm.create_kv_tensors (shutdown_emm (some ⟨"d", 2, 2, [0, 1], []⟩)).1 8 3 "d" 1 =
      ((shutdown_emm (some ⟨"d", 2, 2, [0, 1], []⟩)).1, .error .NotInitialized) ∧
    (init_emm ⟨"d", 2, 2⟩ (shutdown_emm (some ⟨"d", 2, 2, [0, 1], []⟩)).1).2 = .ok () := by
  obtain ⟨h1, h2, h3, h4, h5, h6, h7, h8, h9, h10⟩ := C7_lifecycle
  exact ⟨h1 (some ⟨"d", 2, 2, [0, 1], []⟩), h2 (some ⟨"d", 2, 2, [0, 1], []⟩) [0],
    h5 (some ⟨"d", 2, 2, [0, 1], []⟩) 8 3 "d" 1,
    (h10 ⟨"d", 2, 2⟩ (some ⟨"d", 2, 2, [0, 1], []⟩) (by decide)).1⟩

/-- C8: the dtype byte-width is resolved through the fixed lookup table
torch_dtype_from_size (2 and 4 are the supported widths in the model), and
every width outside the table fails with InvalidArgument. -/
theorem C8_dtype_table :
    torch_dtype_from_size 2 = .ok .float16 ∧
    torch_dtype_from_size 4 = .ok .float32 ∧
    ∀ w, w ≠ 2 → w ≠ 4 → torch_dtype_from_size w = .error .InvalidArgument := by
  refine ⟨rfl, rfl, ?_⟩
  intro w h2 h4
  simp [torch_dtype_from_size, h2, h4]

theorem C8_dtype_table_witness :
    torch_dtype_from_size 2 = .ok .float16 ∧
    torch_dtype_from_size 3 = .error .InvalidArgument :=
  ⟨C8_dtype_table.1, C8_dtype_table.2.2 3 (by decide) (by decide)⟩

theorem C9_counterexample :
    emm.create_kv_tensors (some ⟨"d", 2, 0, [], []⟩) 8 3 "d" 1 =
      (some ⟨"d", 2, 0, [], []⟩, .error .InvalidArgument) ∧
    isOkE ((⟨"d", 2, 0, [], []⟩ : AllocState).create_kv_tensors 8 .float16 "d" 1).2 = true ∧
    isOkE ((⟨"d", 2, 0, [], []⟩ : AllocState).create_kv_tensors 8 .float32 "d" 1).2 = true :=
  ⟨by decide, by decide, by decide⟩

/-- C9 (amended): init_emm, shutdown_emm, map_to_kv_tensors,
unmap_from_kv_tensors and free_kv_tensors are pure pass-throughs from the
binding layer to the FTensorAllocator instance obtained from
global_allocator(), forwarding their arguments unchanged (offsets in the
given order, num_layers unvalidated); create_kv_tensors forwards size,
device string, and num_layers unchanged but first resolves the dtype
byte-width through torch_dtype_from_size, and when that resolution fails
the binding itself fails with that error without reaching the core create
operation. -/
theorem C9_binding_passthrough :
    (∀ st offsets, emm.map_to_kv_tensors (some st) offsets =
      (some (st.map_to_kv_tensors offsets).1, (st.map_to_kv_tensors offsets).2)) ∧
    (∀ st offsets, emm.unmap_from_kv_tensors (some st) offsets =
      (some (st.unmap_from_kv_tensors offsets).1, (st.unmap_from_kv_tensors offsets).2)) ∧
    (∀ st, emm.free_kv_tensors (some st) =
      (some st.free_kv_tensors.1, st.free_kv_tensors.2)) ∧
    (∀ cfg g, init_emm cfg g = FTensorAllocator.init cfg g) ∧
    (∀ g, shutdown_emm g = FTensorAllocator.shutdown g) ∧
    (∀ st size ds dev n d, torch_dtype_from_size ds = .ok d →
      emm.create_kv_tensors (some st) size ds dev n =
        (some (st.create_kv_tensors size d dev n).1,
         (st.create_kv_tensors size d dev n).2)) ∧
    (∀ st size ds dev n e, torch_dtype_from_size ds = .error e →
      emm.create_kv_tensors (some st) size ds dev n = (some st, .error e)) := by
  refine ⟨fun st offsets => rfl, fun st offsets => rfl, fun st => rfl,
    fun cfg g => rfl, fun g => rfl, ?_, ?_⟩
  · intro st size ds dev n d hd
    simp only [emm.create_kv_tensors, FTensorAllocator.global_allocator, hd]
  · intro st size ds dev n e he
    simp only [emm.create_kv_tensors, FTensorAllocator.global_allocator, he]

theorem C9_binding_passthrough_witness :
    emm.map_to_kv_tensors (some ⟨"d", 2, 0, [], []⟩) [0] =
      (some ((⟨"d", 2, 0, [], []⟩ : AllocState).map_to_kv_tensors [0]).1,
       ((⟨"d", 2, 0, [], []⟩ : AllocState).map_to_kv_tensors [0]).2) ∧
    emm.create_kv_tensors (some ⟨"d", 2, 0, [], []⟩) 8 2 "d" 1 =
      (some ((⟨"d", 2, 0, [], []⟩ : AllocState).create_kv_tensors 8 .float16 "d" 1).1,
       ((⟨"d", 2, 0, [], []⟩ : AllocState).create_kv_tensors 8 .float16 "d" 1).2) ∧
    emm.create_kv_tensors (some ⟨"d", 2, 0, [], []⟩) 8 5 "d" 1 =
      (some ⟨"d", 2, 0, [], []⟩, .error .InvalidArgument) := by
  obtain ⟨h1, h2, h3, h4, h5, h6, h7⟩ := C9_binding_passthrough
  exact ⟨h1 ⟨"d", 2, 0, [], []⟩ [0],
    h6 ⟨"d", 2, 0, [], []⟩ 8 2 "d" 1 .float16 (by decide),
    h7 ⟨"d", 2, 0, [], []⟩ 8 5 "d" 1 .InvalidArgument (by decide)⟩

/-- C10: in the binding-layer create_kv_tensors, the dtype byte-width is
resolved before the core create operation is invoked, so an unsupported
dtype_size makes the call fail (with InvalidArgument, once the allocator is
initialized) while the allocator state, its reservations and its pool are
left unchanged. -/
theorem C10_dtype_resolved_first (dtype_size : Nat) (e : EmmError)
    (hd : torch_dtype_from_size dtype_size = .error e) (g : GlobalState) (size : Nat)
    (dev_str : String) (num_layers : Int) :
    (emm.create_kv_tensors g size dtype_size dev_str num_layers).1 = g ∧
    isOkE (emm.create_kv_tensors g size dtype_size dev_str num_layers).2 = false ∧
    (∀ st, g = some st →
      emm.create_kv_tensors g size dtype_size dev_str num_layers = (some st, .error e)) ∧
    e = .InvalidArgument := by
  have he := torch_dtype_error_kind hd
  cases g with
  | none =>
    refine ⟨rfl, rfl, ?_, he⟩
    intro st hst
    exact Option.noConfusion hst
  | some st =>
    have hbind : emm.create_kv_tensors (some st) size dtype_size dev_str num_layers =
        (some st, .error e) := by
      simp only [emm.create_kv_tensors, FTensorAllocator.global_allocator, hd]
    refine ⟨?_, ?_, ?_, he⟩
    · rw [hbind]
    · exact (congrArg (fun p => isOkE p.2) hbind).trans rfl
    · intro st' hst'
      rw [hbind, ← hst']

theorem C10_dtype_resolved_first_witness :
    (emm.create_kv_tensors (some ⟨"d", 2, 1, [0], []⟩) 4 7 "d" 1).1 =
      some ⟨"d", 2, 1, [0], []⟩ ∧
    isOkE (emm.create_kv_tensors (some ⟨"d", 2, 1, [0], []⟩) 4 7 "d" 1).2 = false ∧
    emm.create_kv_tensors (some ⟨"d", 2, 1, [0], []⟩) 4 7 "d" 1 =
      (some ⟨"d", 2, 1, [0], []⟩, .error .InvalidArgument) := by
  obtain ⟨h1, h2, h3, h4⟩ := C10_dtype_resolved_first 7 .InvalidArgument (by decide)
    (some ⟨"d", 2, 1, [0], []⟩) 4 "d" 1
  exact ⟨h1, h2, h3 ⟨"d", 2, 1, [0], []⟩ rfl⟩
